import Mathlib

/-!
Verification of the alpaka cooperative-fiber accelerator backend
(`include/alpaka/AccFibers.hpp`).

The C++ source is shallowly embedded: machine integers (`std::size_t`,
`std::uint32_t`) become `Nat` with explicit wraparound where the source can
overflow, `std::map` keyed by fiber id becomes an association list over `Nat`
fiber ids, `std::vector<uint8_t>` becomes `List Nat`, and the assertion /
`throw` failure paths become `Option` / `Except`.  Cooperative scheduling is
embedded in two ways: the barrier (`FiberBarrier`) is modelled directly as a
state transformer over (count, waiting queue), and a block's fiber lifecycle
(register, first barrier, kernel body, second barrier) is modelled as a
small-step transition relation over all interleavings, where leaving a
barrier requires that every fiber of the block has arrived at it.
-/

set_option maxHeartbeats 1000000

namespace AlpakaFibers

/-- `vec<3u>` from the alpaka source: a triple of unsigned integers.
Component `[0]` is `x`, `[1]` is `y`, `[2]` is `z`. -/
structure Vec3 where
  x : Nat
  y : Nat
  z : Nat
deriving DecidableEq, Repr

/-- The linearized extent of a 3-dimensional size, as used by
`getSize<Block, Kernels, Linear>`. -/
def Vec3.linear (v : Vec3) : Nat := v.x * v.y * v.z

/-- Decrement of a C++ `std::size_t` value (64-bit, wraps at zero),
as performed by `--m_uiNumFibersToWaitFor`. -/
def sizetDec (n : Nat) : Nat := (n + (2 ^ 64 - 1)) % 2 ^ 64

theorem sizetDec_eq_sub_one {c : Nat} (h1 : 1 ≤ c) (h2 : c < 2 ^ 64) :
    sizetDec c = c - 1 := by
  unfold sizetDec
  have hc : c + (2 ^ 64 - 1) = (c - 1) + 1 * 2 ^ 64 := by omega
  rw [hc, Nat.add_mul_mod_self_right]
  exact Nat.mod_eq_of_lt (by omega)

/-- `FiberBarrier` from the source: an expected-arrival counter
(`m_uiNumFibersToWaitFor`) plus the queue of fibers suspended on the
condition variable `m_cvAllFibersReachedBarrier`. -/
structure FiberBarrier where
  numFibersToWaitFor : Nat
  waiting : List Nat
deriving DecidableEq, Repr

/-- `FiberBarrier::getNumFibersToWaitFor`. -/
def FiberBarrier.getNumFibersToWaitFor (b : FiberBarrier) : Nat :=
  b.numFibersToWaitFor

/-- `FiberBarrier::reset`: sets the expected-arrival counter only
(the wait queue is untouched by the source). -/
def FiberBarrier.reset (b : FiberBarrier) (uiNumFibersToWaitFor : Nat) :
    FiberBarrier :=
  { b with numFibersToWaitFor := uiNumFibersToWaitFor }

/-- `FiberBarrier::wait`, called by fiber `f`: decrement the counter
(`std::size_t` semantics); if it reached zero, `notify_all` releases every
waiter — and the caller itself returns without suspending — otherwise the
caller suspends on the condition variable with predicate `count == 0`.
The second component is the list of fibers whose `wait` call returns as a
consequence of this arrival. -/
def FiberBarrier.wait (b : FiberBarrier) (f : Nat) : FiberBarrier × List Nat :=
  let c := sizetDec b.numFibersToWaitFor
  if c = 0 then
    (⟨0, []⟩, f :: b.waiting)
  else
    (⟨c, b.waiting ++ [f]⟩, [])

/-- A sequence of `wait` calls by the given fibers, in arrival order;
returns the final barrier state and, per arrival, the fibers released by
that arrival. -/
def FiberBarrier.runArrivals (b : FiberBarrier) :
    List Nat → FiberBarrier × List (List Nat)
  | [] => (b, [])
  | f :: fs =>
    let r := b.wait f
    let rest := r.1.runArrivals fs
    (rest.1, r.2 :: rest.2)

theorem runArrivalsAux (l : Nat) :
    ∀ (ls w : List Nat), ls.length + 1 < 2 ^ 64 →
      FiberBarrier.runArrivals ⟨ls.length + 1, w⟩ (ls ++ [l]) =
        (⟨0, []⟩, List.replicate ls.length [] ++ [l :: (w ++ ls)]) := by
  intro ls
  induction ls with
  | nil =>
    intro w _
    simp only [List.length_nil, List.nil_append]
    have hdec : sizetDec 1 = 0 := by
      rw [sizetDec_eq_sub_one (by omega) (by norm_num)]
    simp [FiberBarrier.runArrivals, FiberBarrier.wait, hdec]
  | cons f ls ih =>
    intro w hlt
    have hlen : (f :: ls).length + 1 = ls.length + 2 := by simp
    rw [hlen] at hlt ⊢
    have hdec : sizetDec (ls.length + 2) = ls.length + 1 :=
      sizetDec_eq_sub_one (by omega) hlt
    simp only [List.cons_append, FiberBarrier.runArrivals,
      FiberBarrier.wait, hdec]
    rw [if_neg (by omega)]
    have := ih (w ++ [f]) (by simpa using Nat.lt_of_succ_lt hlt)
    simp only [List.append_eq, this]
    simp [List.replicate_succ, List.append_assoc]

/-- C4: For every `N ≥ 1`, if a `FiberBarrier` holds expected count `N` and
exactly `N` cooperative fibers call `wait()` on it, every one of the `N`
calls returns, no call returns before the `N`th call has been issued (the
first `N - 1` arrivals release nobody), and the arrival that brings the
count to zero releases all waiters together with itself (it returns without
suspending). -/
theorem fiberBarrier_rendezvous (N : Nat) (fs : List Nat)
    (hN : 1 ≤ N) (h64 : N < 2 ^ 64) (hlen : fs.length = N) :
    ∃ early last,
      fs = early ++ [last] ∧
      FiberBarrier.runArrivals ⟨N, []⟩ fs =
        (⟨0, []⟩, List.replicate (N - 1) [] ++ [last :: early]) ∧
      (∀ f ∈ fs, f ∈ last :: early) ∧
      last ∈ last :: early := by
  have hne : fs ≠ [] := by
    intro h
    rw [h] at hlen
    simp at hlen
    omega
  refine ⟨fs.dropLast, fs.getLast hne, (List.dropLast_append_getLast hne).symm,
    ?_, ?_, List.mem_cons_self _ _⟩
  · have hdl : fs.dropLast.length = N - 1 := by
      rw [List.length_dropLast, hlen]
    have hN1 : N - 1 + 1 = N := by omega
    have := runArrivalsAux (fs.getLast hne) fs.dropLast []
      (by rw [hdl, hN1]; exact h64)
    rw [hdl, hN1, List.dropLast_append_getLast hne] at this
    simpa [hdl] using this
  · intro f hf
    conv at hf => rw [← List.dropLast_append_getLast hne]
    rcases List.mem_append.mp hf with h | h
    · exact List.mem_cons_of_mem _ h
    · simp at h
      simp [h]

/-- Witness for C4 at `N = 3` with fibers `[10, 20, 30]`. -/
theorem fiberBarrier_rendezvous_witness :
    1 ≤ 3 ∧ (3 : Nat) < 2 ^ 64 ∧ ([10, 20, 30] : List Nat).length = 3 ∧
    (∃ early last,
      ([10, 20, 30] : List Nat) = early ++ [last] ∧
      FiberBarrier.runArrivals ⟨3, []⟩ [10, 20, 30] =
        (⟨0, []⟩, List.replicate (3 - 1) [] ++ [last :: early]) ∧
      (∀ f ∈ ([10, 20, 30] : List Nat), f ∈ last :: early) ∧
      last ∈ last :: early) :=
  ⟨by norm_num, by norm_num, by norm_num,
    fiberBarrier_rendezvous 3 [10, 20, 30] (by norm_num) (by norm_num)
      (by norm_num)⟩

/-- Association-list lookup on `Nat` keys: the key is present. -/
theorem lookup_cons_self {β : Type} (k : Nat) (v : β) (l : List (Nat × β)) :
    List.lookup k ((k, v) :: l) = some v := by
  simp [List.lookup]

/-- Association-list lookup on `Nat` keys: the head key differs. -/
theorem lookup_cons_ne {β : Type} {k k' : Nat} (v : β) (l : List (Nat × β))
    (h : k ≠ k') : List.lookup k ((k', v) :: l) = List.lookup k l := by
  simp only [List.lookup]
  rw [beq_eq_false_iff_ne.mpr h]

/-- In-place update of the value stored under the first occurrence of key
`f`, mirroring `++uiBarIndex` acting on the `std::map` entry. -/
def setPhase (f v : Nat) : List (Nat × Nat) → List (Nat × Nat)
  | [] => []
  | (k, p) :: rest =>
    if k = f then (k, v) :: rest else (k, p) :: setPhase f v rest

theorem lookup_setPhase_self (f v : Nat) (l : List (Nat × Nat))
    (h : (List.lookup f l).isSome) :
    List.lookup f (setPhase f v l) = some v := by
  induction l with
  | nil => simp [List.lookup] at h
  | cons kp rest ih =>
    obtain ⟨k, p⟩ := kp
    by_cases hk : k = f
    · subst hk
      simp [setPhase, lookup_cons_self]
    · rw [lookup_cons_ne p rest (fun hh => hk hh.symm)] at h
      simp only [setPhase, if_neg hk]
      rw [lookup_cons_ne _ _ (fun hh => hk hh.symm)]
      exact ih h

/-- The per-`AccFibers` state read and written by `syncBlockKernels`:
the block's fiber count `m_uiNumKernelsPerBlock`, the per-fiber barrier
phase table `m_mFibersToBarrier`, and the two barriers `m_abarSyncFibers`. -/
structure SyncState where
  numKernelsPerBlock : Nat
  fibersToBarrier : List (Nat × Nat)
  bar0 : FiberBarrier
  bar1 : FiberBarrier
deriving Repr

/-- The (re)initialization performed by the first fiber to reach a barrier
whose counter is zero: `if(bar.getNumFibersToWaitFor() == 0)
bar.reset(m_uiNumKernelsPerBlock)`. -/
def armIfIdle (uiNumKernelsPerBlock : Nat) (b : FiberBarrier) : FiberBarrier :=
  if b.getNumFibersToWaitFor = 0 then b.reset uiNumKernelsPerBlock else b

/-- `AccFibers::syncBlockKernels`, executed by fiber `f`: look up the
fiber's barrier phase (`assert` on failure, modelled as `none`), select
barrier `phase % 2`, re-arm it if idle, wait on it, and increment the
fiber's phase.  Returns the new state and the fibers released by the
embedded `wait`. -/
def syncBlockKernels (s : SyncState) (f : Nat) :
    Option (SyncState × List Nat) :=
  match s.fibersToBarrier.lookup f with
  | none => none
  | some p =>
    let uiBarrierIndex := p % 2
    let bar := armIfIdle s.numKernelsPerBlock
      (if uiBarrierIndex = 0 then s.bar0 else s.bar1)
    let r := bar.wait f
    some (⟨s.numKernelsPerBlock,
           setPhase f (p + 1) s.fibersToBarrier,
           if uiBarrierIndex = 0 then r.1 else s.bar0,
           if uiBarrierIndex = 0 then s.bar1 else r.1⟩, r.2)

/-- C5: a lane whose phase-table entry is `p` synchronizes through barrier
buffer `p % 2`: the other buffer is untouched, the touched buffer is the
result of re-arming (to the block's lane count, exactly when it was idle)
and then waiting, and the lane's phase entry becomes `p + 1`, so its next
call uses the other buffer (`(p + 1) % 2 ≠ p % 2`). -/
theorem syncBlockKernels_doubleBuffer (s : SyncState) (f p : Nat)
    (h : s.fibersToBarrier.lookup f = some p) :
    ∃ s' rel, syncBlockKernels s f = some (s', rel) ∧
      s'.fibersToBarrier.lookup f = some (p + 1) ∧
      s'.numKernelsPerBlock = s.numKernelsPerBlock ∧
      (p % 2 = 0 →
        s'.bar1 = s.bar1 ∧
        (s'.bar0, rel) = (armIfIdle s.numKernelsPerBlock s.bar0).wait f ∧
        (s.bar0.getNumFibersToWaitFor = 0 →
          (armIfIdle s.numKernelsPerBlock s.bar0).getNumFibersToWaitFor =
            s.numKernelsPerBlock)) ∧
      (p % 2 = 1 →
        s'.bar0 = s.bar0 ∧
        (s'.bar1, rel) = (armIfIdle s.numKernelsPerBlock s.bar1).wait f ∧
        (s.bar1.getNumFibersToWaitFor = 0 →
          (armIfIdle s.numKernelsPerBlock s.bar1).getNumFibersToWaitFor =
            s.numKernelsPerBlock)) ∧
      (p + 1) % 2 ≠ p % 2 := by
  refine ⟨⟨s.numKernelsPerBlock, setPhase f (p + 1) s.fibersToBarrier,
      if p % 2 = 0 then
        ((armIfIdle s.numKernelsPerBlock
          (if p % 2 = 0 then s.bar0 else s.bar1)).wait f).1
      else s.bar0,
      if p % 2 = 0 then s.bar1 else
        ((armIfIdle s.numKernelsPerBlock
          (if p % 2 = 0 then s.bar0 else s.bar1)).wait f).1⟩,
    ((armIfIdle s.numKernelsPerBlock
      (if p % 2 = 0 then s.bar0 else s.bar1)).wait f).2,
    ?_, ?_, rfl, ?_, ?_, by omega⟩
  · unfold syncBlockKernels
    rw [h]
  · exact lookup_setPhase_self f (p + 1) s.fibersToBarrier (by rw [h]; rfl)
  · intro hp
    refine ⟨by simp [hp], by simp [hp], fun hz => ?_⟩
    simp only [FiberBarrier.getNumFibersToWaitFor] at hz
    simp [armIfIdle, hz, FiberBarrier.reset, FiberBarrier.getNumFibersToWaitFor]
  · intro hp
    have hp0 : ¬ p % 2 = 0 := by omega
    refine ⟨by simp [hp0], by simp [hp0], fun hz => ?_⟩
    simp only [FiberBarrier.getNumFibersToWaitFor] at hz
    simp [armIfIdle, hz, FiberBarrier.reset, FiberBarrier.getNumFibersToWaitFor]

/-- Witness for C5: fiber `7` with phase `3` in a block of `4` lanes. -/
theorem syncBlockKernels_doubleBuffer_witness :
    (SyncState.mk 4 [(7, 3)] ⟨0, []⟩ ⟨2, []⟩).fibersToBarrier.lookup 7 =
      some 3 ∧
    (∃ s' rel,
      syncBlockKernels (SyncState.mk 4 [(7, 3)] ⟨0, []⟩ ⟨2, []⟩) 7 =
        some (s', rel) ∧
      s'.fibersToBarrier.lookup 7 = some (3 + 1) ∧
      s'.numKernelsPerBlock = (SyncState.mk 4 [(7, 3)] ⟨0, []⟩ ⟨2, []⟩).numKernelsPerBlock ∧
      (3 % 2 = 0 →
        s'.bar1 = ⟨2, []⟩ ∧
        (s'.bar0, rel) = (armIfIdle 4 ⟨0, []⟩).wait 7 ∧
        ((FiberBarrier.mk 0 []).getNumFibersToWaitFor = 0 →
          (armIfIdle 4 ⟨0, []⟩).getNumFibersToWaitFor = 4)) ∧
      (3 % 2 = 1 →
        s'.bar0 = ⟨0, []⟩ ∧
        (s'.bar1, rel) = (armIfIdle 4 ⟨2, []⟩).wait 7 ∧
        ((FiberBarrier.mk 2 []).getNumFibersToWaitFor = 0 →
          (armIfIdle 4 ⟨2, []⟩).getNumFibersToWaitFor = 4)) ∧
      (3 + 1) % 2 ≠ 3 % 2) :=
  ⟨by simp [List.lookup],
    syncBlockKernels_doubleBuffer (SyncState.mk 4 [(7, 3)] ⟨0, []⟩ ⟨2, []⟩) 7 3
      (by simp [List.lookup])⟩

/-- `AccFibers::getSizeBlockKernelsLinearMax`: the backend-declared ceiling,
the constant `1024`. -/
def getSizeBlockKernelsLinearMax : Nat := 1024

/-- `AccFibers::getSizeBlockKernelsMax`: the linear maximum repeated in each
of the three dimensions. -/
def getSizeBlockKernelsMax : Vec3 :=
  ⟨getSizeBlockKernelsLinearMax, getSizeBlockKernelsLinearMax,
    getSizeBlockKernelsLinearMax⟩

/-- The row-major coordinate enumeration shared by the block loop and the
kernel loop of `KernelExecutor::operator()`: `z` (component `[2]`)
outermost, then `y`, then `x` innermost. -/
def coordList (s : Vec3) : List Vec3 :=
  (List.range s.z).flatMap (fun cz =>
    (List.range s.y).flatMap (fun cy =>
      (List.range s.x).map (fun cx => ⟨cx, cy, cz⟩)))

/-- The mutable per-execution state of `AccFibers` touched by the executor:
`m_mFibersToIndices`, `m_mFibersToBarrier`, `m_vvuiSharedMem` and
`m_vuiExternalSharedMem`. -/
structure ExecState where
  fibersToIndices : List (Nat × Vec3)
  fibersToBarrier : List (Nat × Nat)
  sharedMem : List (List Nat)
  externalSharedMem : List Nat
deriving DecidableEq, Repr

/-- What one iteration of the block loop observably does: the block index
set before spawning, the lane coordinates passed by value to the spawned
fibers (in spawn order), the byte size of `m_vuiExternalSharedMem` that
`getBlockSharedExternMem` addresses while this block runs, the
(block index, lane index) records produced by a kernel that records its own
lane coordinate, and the `AccFibers` state left behind after the
post-join clean-up. -/
structure BlockTrace where
  blockIdx : Vec3
  spawned : List Vec3
  externMemBytesSeen : Nat
  recorded : List (Vec3 × Vec3)
  postState : ExecState
deriving DecidableEq, Repr

/-- One iteration of the block loop body of `KernelExecutor::operator()`
for the coordinate-recording kernel: spawn one fiber per lane coordinate in
row-major order, each holding a by-value copy of its coordinate; joining
them lets every fiber register `(id, coordinate)` and phase `0` (fiber ids
are spawn-order indices), run the kernel (which records its own captured
coordinate), and then the executor clears `m_vFibersInBlock`,
`m_mFibersToIndices`, `m_mFibersToBarrier`, `m_vvuiSharedMem` and
`m_vuiExternalSharedMem`. -/
def runBlock (st : ExecState) (bIdx bSize : Vec3) : BlockTrace × ExecState :=
  let spawned := coordList bSize
  let stJoined : ExecState :=
    { st with
      fibersToIndices := st.fibersToIndices ++ spawned.enum,
      fibersToBarrier :=
        st.fibersToBarrier ++ spawned.enum.map (fun q => (q.1, 2)) }
  let stCleared : ExecState :=
    { fibersToIndices := [], fibersToBarrier := [], sharedMem := [],
      externalSharedMem := [] }
  (⟨bIdx, spawned, stJoined.externalSharedMem.length,
    spawned.map (fun l => (bIdx, l)), stCleared⟩, stCleared)

/-- The error thrown when the requested lanes-per-block count exceeds the
ceiling; the message embeds both the requested and the maximum value. -/
structure ConfigError where
  requested : Nat
  maximum : Nat
deriving DecidableEq, Repr

/-- The grid/block extents supplied through the work-size descriptor. -/
structure WorkSize where
  gridBlocks : Vec3
  blockKernels : Vec3
deriving DecidableEq, Repr

/-- The block-loop fold of `KernelExecutor::operator()`: process each block
coordinate in order, accumulating the per-block traces and threading the
`AccFibers` state. -/
def execFold (bSize : Vec3) (acc : List BlockTrace × ExecState) :
    List Vec3 → List BlockTrace × ExecState
  | [] => acc
  | bIdx :: rest =>
    let r := runBlock acc.2 bIdx bSize
    execFold bSize (acc.1 ++ [r.1], r.2) rest

/-- `KernelExecutor::operator()` for the coordinate-recording kernel:
validate the linearized lanes-per-block count against
`getSizeBlockKernelsLinearMax` (throwing a `ConfigError` carrying both
values), size `m_vuiExternalSharedMem` once from
`getBlockSharedExternMemSizeBytes` applied to the block's lane extents
(`resize` zero-fills), then iterate the grid's block coordinates in
row-major order. -/
def execute (ws : WorkSize) (blockSharedExternMemSizeBytes : Vec3 → Nat) :
    Except ConfigError (List BlockTrace × ExecState) :=
  let uiNumKernelsPerBlock := ws.blockKernels.linear
  let uiMaxKernelsPerBlock := getSizeBlockKernelsLinearMax
  if uiNumKernelsPerBlock > uiMaxKernelsPerBlock then
    .error ⟨uiNumKernelsPerBlock, uiMaxKernelsPerBlock⟩
  else
    let st0 : ExecState :=
      { fibersToIndices := [], fibersToBarrier := [], sharedMem := [],
        externalSharedMem :=
          List.replicate (blockSharedExternMemSizeBytes ws.blockKernels) 0 }
    .ok (execFold ws.blockKernels ([], st0) (coordList ws.gridBlocks))

/-- Number of lane tasks spawned over the whole call (zero when the call
fails). -/
def spawnedCount (r : Except ConfigError (List BlockTrace × ExecState)) :
    Nat :=
  match r with
  | .error _ => 0
  | .ok (ts, _) => (ts.map (fun t => t.spawned.length)).sum

/-- Number of kernel-body executions over the whole call (zero when the
call fails). -/
def kernelRunCount (r : Except ConfigError (List BlockTrace × ExecState)) :
    Nat :=
  match r with
  | .error _ => 0
  | .ok (ts, _) => (ts.map (fun t => t.recorded.length)).sum

/-- The external-shared-memory byte size each block's lanes observe, in
block order. -/
def externSizesSeen (r : Except ConfigError (List BlockTrace × ExecState)) :
    List Nat :=
  match r with
  | .error _ => []
  | .ok (ts, _) => ts.map (fun t => t.externMemBytesSeen)

/-- All (block index, lane index) records produced by the
coordinate-recording kernel over the whole call. -/
def allRecorded (r : Except ConfigError (List BlockTrace × ExecState)) :
    List (Vec3 × Vec3) :=
  match r with
  | .error _ => []
  | .ok (ts, _) => ts.flatMap (fun t => t.recorded)

/-- The coordinator ("master") append inside
`AccFibers::allocBlockSharedMem`: exactly the fiber whose id equals
`m_idMasterFiber` executes `m_vvuiSharedMem.emplace_back()`, which appends
a default-constructed — hence empty, zero-byte — buffer; no size argument
is passed. -/
def allocBlockSharedMemAppend (idMasterFiber idFiber : Nat)
    (vvuiSharedMem : List (List Nat)) : List (List Nat) :=
  if idMasterFiber = idFiber then vvuiSharedMem ++ [[]] else vvuiSharedMem

/-- The value every lane returns from `allocBlockSharedMem`:
`m_vvuiSharedMem.back().data()`, i.e. the most recently appended buffer. -/
def allocBlockSharedMemResult (vvuiSharedMem : List (List Nat)) :
    Option (List Nat) :=
  vvuiSharedMem.getLast?

/-- The byte capacity an allocation of `uiNumElements` elements of a type
of size `sizeofT` must provide. -/
def allocRequestBytes (sizeofT uiNumElements : Nat) : Nat :=
  sizeofT * uiNumElements

/-- C1, code bug, evaluated at the failing input
`allocBlockSharedMem<uint32_t, 4>` (4-byte elements, 4 of them) called by
the coordinator fiber (id 0) on an empty `m_vvuiSharedMem`: the appended
buffer — the one whose address every lane receives — holds 0 bytes, while
the claimed zero-initialized buffer of 4 elements needs 16. -/
theorem allocBlockSharedMem_appends_empty_buffer :
    allocBlockSharedMemAppend 0 0 [] = [[]] ∧
    allocBlockSharedMemResult (allocBlockSharedMemAppend 0 0 []) =
      some [] ∧
    ([] : List Nat).length = 0 ∧
    0 < allocRequestBytes 4 4 := by
  refine ⟨rfl, rfl, rfl, ?_⟩
  decide

/-- C2, code bug, evaluated at the failing input: a grid of two blocks
(`2×1×1`), one lane per block, external-shared-memory size function
constantly 16 bytes.  `m_vuiExternalSharedMem` is resized once before the
grid loop but cleared after every block, so the first block's lanes see a
16-byte buffer and the second block's lanes see an empty one. -/
theorem externalSharedMem_secondBlock_empty :
    externSizesSeen (execute ⟨⟨2, 1, 1⟩, ⟨1, 1, 1⟩⟩ (fun _ => 16)) =
      [16, 0] := by
  decide

/-- C3: whenever the linearized lanes-per-block count exceeds the
backend-declared ceiling, `operator()` fails with a configuration error
reporting both the requested and the maximum value, and zero lane tasks
are spawned and zero kernel bodies run. -/
theorem execute_oversized_rejected (ws : WorkSize) (fn : Vec3 → Nat)
    (h : ws.blockKernels.linear > getSizeBlockKernelsLinearMax) :
    execute ws fn =
      .error ⟨ws.blockKernels.linear, getSizeBlockKernelsLinearMax⟩ ∧
    spawnedCount (execute ws fn) = 0 ∧
    kernelRunCount (execute ws fn) = 0 := by
  have he : execute ws fn =
      .error ⟨ws.blockKernels.linear, getSizeBlockKernelsLinearMax⟩ := by
    unfold execute
    rw [if_pos h]
  exact ⟨he, by rw [he]; rfl, by rw [he]; rfl⟩

/-- Witness for C3: one block of `2048×1×1` lanes exceeds the ceiling. -/
theorem execute_oversized_rejected_witness :
    (WorkSize.mk ⟨1, 1, 1⟩ ⟨2048, 1, 1⟩).blockKernels.linear >
      getSizeBlockKernelsLinearMax ∧
    (execute ⟨⟨1, 1, 1⟩, ⟨2048, 1, 1⟩⟩ (fun _ => 0) =
      .error ⟨(WorkSize.mk ⟨1, 1, 1⟩ ⟨2048, 1, 1⟩).blockKernels.linear,
        getSizeBlockKernelsLinearMax⟩ ∧
    spawnedCount (execute ⟨⟨1, 1, 1⟩, ⟨2048, 1, 1⟩⟩ (fun _ => 0)) = 0 ∧
    kernelRunCount (execute ⟨⟨1, 1, 1⟩, ⟨2048, 1, 1⟩⟩ (fun _ => 0)) = 0) :=
  ⟨by decide,
    execute_oversized_rejected ⟨⟨1, 1, 1⟩, ⟨2048, 1, 1⟩⟩ (fun _ => 0)
      (by decide)⟩

/-- C10: the ceiling is the constant `1024`; `getSizeBlockKernelsMax` is
that constant in every dimension; and the `operator()` validation compares
only the linearized (product) count against it, so the block
`1024×1024×1024` — maximal in each dimension individually — is rejected
with requested value `1024³`, while a block that is maximal in one
dimension only (`1024×1×1`) passes validation. -/
theorem sizeBlockKernelsMax_constants :
    getSizeBlockKernelsLinearMax = 1024 ∧
    getSizeBlockKernelsMax = ⟨1024, 1024, 1024⟩ ∧
    (Vec3.mk 1024 1024 1024).x ≤ getSizeBlockKernelsMax.x ∧
    (Vec3.mk 1024 1024 1024).y ≤ getSizeBlockKernelsMax.y ∧
    (Vec3.mk 1024 1024 1024).z ≤ getSizeBlockKernelsMax.z ∧
    execute ⟨⟨1, 1, 1⟩, ⟨1024, 1024, 1024⟩⟩ (fun _ => 0) =
      .error ⟨1073741824, 1024⟩ ∧
    (execute ⟨⟨1, 1, 1⟩, ⟨1024, 1, 1⟩⟩ (fun _ => 0)).isOk = true := by
  refine ⟨rfl, rfl, by decide, by decide, by decide, rfl, rfl⟩

/-- The `static_assert(UiNumElements > 0, ...)` in `allocBlockSharedMem`:
a program whose kernel instantiates the template with the given element
counts compiles only when every count is positive. -/
def allocRequestsCompile (reqs : List Nat) : Bool :=
  reqs.all (fun uiNumElements => decide (uiNumElements > 0))

/-- Compile-then-run: only a program that passes the static check is ever
executed; a rejected program produces no execution at all. -/
def compileAndExecute (reqs : List Nat) (ws : WorkSize) (fn : Vec3 → Nat) :
    Option (Except ConfigError (List BlockTrace × ExecState)) :=
  if allocRequestsCompile reqs then some (execute ws fn) else none

/-- Lane tasks spawned by a compile-then-run attempt. -/
def compiledSpawnCount
    (r : Option (Except ConfigError (List BlockTrace × ExecState))) : Nat :=
  match r with
  | none => 0
  | some r => spawnedCount r

/-- C9: a program containing a zero-element shared-memory request is
rejected by the `static_assert` before anything runs: it never executes,
and no lane task is ever spawned for it. -/
theorem zeroElementAlloc_rejected (reqs : List Nat) (ws : WorkSize)
    (fn : Vec3 → Nat) (h : 0 ∈ reqs) :
    compileAndExecute reqs ws fn = none ∧
    compiledSpawnCount (compileAndExecute reqs ws fn) = 0 := by
  have hc : allocRequestsCompile reqs = false := by
    rw [Bool.eq_false_iff]
    intro hall
    have := List.all_eq_true.mp hall 0 h
    simp at this
  rw [compileAndExecute, hc]
  exact ⟨rfl, rfl⟩

/-- Witness for C9: requests `[4, 0]` contain a zero-element request. -/
theorem zeroElementAlloc_rejected_witness :
    (0 ∈ ([4, 0] : List Nat)) ∧
    (compileAndExecute [4, 0] ⟨⟨1, 1, 1⟩, ⟨1, 1, 1⟩⟩ (fun _ => 0) = none ∧
    compiledSpawnCount
      (compileAndExecute [4, 0] ⟨⟨1, 1, 1⟩, ⟨1, 1, 1⟩⟩ (fun _ => 0)) = 0) :=
  ⟨by decide,
    zeroElementAlloc_rejected [4, 0] ⟨⟨1, 1, 1⟩, ⟨1, 1, 1⟩⟩ (fun _ => 0)
      (by decide)⟩

theorem count_coordRow (sx vy vz : Nat) (v : Vec3) :
    ((List.range sx).map (fun cx => (⟨cx, vy, vz⟩ : Vec3))).count v =
      if v.x < sx ∧ v.y = vy ∧ v.z = vz then 1 else 0 := by
  obtain ⟨vx2, vy2, vz2⟩ := v
  induction sx with
  | zero => simp
  | succ n ih =>
    rw [List.range_succ, List.map_append, List.count_append, ih]
    simp only [List.map_cons, List.map_nil, List.count_cons, List.count_nil,
      beq_iff_eq, Vec3.mk.injEq]
    split_ifs <;> omega

theorem count_coordPlane (sx sy vz : Nat) (v : Vec3) :
    ((List.range sy).flatMap (fun cy =>
      (List.range sx).map (fun cx => (⟨cx, cy, vz⟩ : Vec3)))).count v =
      if v.x < sx ∧ v.y < sy ∧ v.z = vz then 1 else 0 := by
  induction sy with
  | zero => simp
  | succ n ih =>
    rw [List.range_succ, List.flatMap_append, List.count_append, ih]
    simp only [List.flatMap_cons, List.flatMap_nil, List.append_nil]
    rw [count_coordRow]
    split_ifs <;> omega

/-- Each lane (or block) coordinate inside the extents occurs exactly once
in the row-major enumeration, and coordinates outside it never occur. -/
theorem count_coordList (s : Vec3) (v : Vec3) :
    (coordList s).count v =
      if v.x < s.x ∧ v.y < s.y ∧ v.z < s.z then 1 else 0 := by
  obtain ⟨sx, sy, sz⟩ := s
  unfold coordList
  induction sz with
  | zero => simp
  | succ n ih =>
    rw [List.range_succ, List.flatMap_append, List.count_append, ih]
    simp only [List.flatMap_cons, List.flatMap_nil, List.append_nil]
    rw [count_coordPlane]
    split_ifs <;> omega

theorem length_coordPlane (sx sy vz : Nat) :
    ((List.range sy).flatMap (fun cy =>
      (List.range sx).map (fun cx => (⟨cx, cy, vz⟩ : Vec3)))).length =
      sy * sx := by
  induction sy with
  | zero => simp
  | succ n ih =>
    rw [List.range_succ, List.flatMap_append, List.length_append, ih]
    simp [Nat.succ_mul]

theorem length_coordList (s : Vec3) : (coordList s).length = s.linear := by
  obtain ⟨sx, sy, sz⟩ := s
  unfold coordList Vec3.linear
  induction sz with
  | zero => simp
  | succ n ih =>
    rw [List.range_succ, List.flatMap_append, List.length_append, ih]
    simp only [List.flatMap_cons, List.flatMap_nil, List.append_nil,
      length_coordPlane]
    ring

theorem execFold_map_blockIdx (bSize : Vec3) (blocks : List Vec3) :
    ∀ acc, (execFold bSize acc blocks).1.map (fun t => t.blockIdx) =
      acc.1.map (fun t => t.blockIdx) ++ blocks := by
  induction blocks with
  | nil => intro acc; simp [execFold]
  | cons b bs ih =>
    intro acc
    rw [execFold, ih]
    simp [runBlock]

theorem execFold_map_spawned (bSize : Vec3) (blocks : List Vec3) :
    ∀ acc, (execFold bSize acc blocks).1.map (fun t => t.spawned) =
      acc.1.map (fun t => t.spawned) ++
        blocks.map (fun _ => coordList bSize) := by
  induction blocks with
  | nil => intro acc; simp [execFold]
  | cons b bs ih =>
    intro acc
    rw [execFold, ih]
    simp [runBlock]

theorem execFold_map_recorded (bSize : Vec3) (blocks : List Vec3) :
    ∀ acc, (execFold bSize acc blocks).1.map (fun t => t.recorded) =
      acc.1.map (fun t => t.recorded) ++
        blocks.map (fun bIdx =>
          (coordList bSize).map (fun l => (bIdx, l))) := by
  induction blocks with
  | nil => intro acc; simp [execFold]
  | cons b bs ih =>
    intro acc
    rw [execFold, ih]
    simp [runBlock]

theorem execFold_flatMap_recorded (bSize : Vec3) (blocks : List Vec3) :
    ∀ acc, (execFold bSize acc blocks).1.flatMap (fun t => t.recorded) =
      acc.1.flatMap (fun t => t.recorded) ++
        blocks.flatMap (fun bIdx =>
          (coordList bSize).map (fun l => (bIdx, l))) := by
  induction blocks with
  | nil => intro acc; simp [execFold]
  | cons b bs ih =>
    intro acc
    rw [execFold, ih]
    simp [runBlock]

theorem count_pairRow (b0 b l : Vec3) (lanes : List Vec3) :
    (lanes.map (fun l' => (b0, l'))).count (b, l) =
      if b0 = b then lanes.count l else 0 := by
  induction lanes with
  | nil => simp
  | cons l0 rest ih =>
    simp only [List.map_cons, List.count_cons, ih, beq_iff_eq,
      Prod.mk.injEq]
    split_ifs <;> simp_all

theorem count_pairProd (b l : Vec3) (blocks lanes : List Vec3) :
    (blocks.flatMap (fun b' => lanes.map (fun l' => (b', l')))).count
        (b, l) =
      blocks.count b * lanes.count l := by
  induction blocks with
  | nil => simp
  | cons b0 rest ih =>
    rw [List.flatMap_cons, List.count_append, ih, count_pairRow,
      List.count_cons]
    simp only [beq_iff_eq]
    split_ifs <;> ring

theorem length_pairProd (blocks lanes : List Vec3) :
    (blocks.flatMap (fun b' =>
      lanes.map (fun l' => (b', l')))).length =
      blocks.length * lanes.length := by
  induction blocks with
  | nil => simp
  | cons b0 rest ih =>
    rw [List.flatMap_cons, List.length_append, ih]
    simp [Nat.succ_mul]
    ring

/-- C6: for every work size whose lanes-per-block count is within the
ceiling, `operator()` visits the grid's block coordinates in row-major
order and, per block, spawns exactly one fiber per lane coordinate of the
block in the same row-major order, each holding a by-value copy of its own
coordinate; hence the coordinate-recording kernel produces exactly one
record per (block, lane) coordinate pair in range, and the total number of
records is the number of blocks times the number of lanes per block. -/
theorem execute_oneTaskPerLane (ws : WorkSize) (fn : Vec3 → Nat)
    (h : ws.blockKernels.linear ≤ getSizeBlockKernelsLinearMax) :
    (∃ ts st, execute ws fn = .ok (ts, st) ∧
      ts.map (fun t => t.blockIdx) = coordList ws.gridBlocks ∧
      ts.map (fun t => t.spawned) =
        (coordList ws.gridBlocks).map (fun _ => coordList ws.blockKernels) ∧
      ts.map (fun t => t.recorded) =
        (coordList ws.gridBlocks).map (fun b =>
          (coordList ws.blockKernels).map (fun l => (b, l)))) ∧
    (∀ b l : Vec3,
      b.x < ws.gridBlocks.x → b.y < ws.gridBlocks.y →
      b.z < ws.gridBlocks.z → l.x < ws.blockKernels.x →
      l.y < ws.blockKernels.y → l.z < ws.blockKernels.z →
      (allRecorded (execute ws fn)).count (b, l) = 1) ∧
    (allRecorded (execute ws fn)).length =
      ws.gridBlocks.linear * ws.blockKernels.linear := by
  have hok : execute ws fn =
      .ok (execFold ws.blockKernels
        ([], ⟨[], [], [],
          List.replicate (fn ws.blockKernels) 0⟩)
        (coordList ws.gridBlocks)) := by
    unfold execute
    rw [if_neg (by omega)]
  have hrec : allRecorded (execute ws fn) =
      (coordList ws.gridBlocks).flatMap (fun bIdx =>
        (coordList ws.blockKernels).map (fun l => (bIdx, l))) := by
    rw [hok]
    show (execFold _ _ _).1.flatMap (fun t => t.recorded) = _
    rw [execFold_flatMap_recorded]
    simp
  refine ⟨⟨_, _, hok, ?_, ?_, ?_⟩, ?_, ?_⟩
  · rw [execFold_map_blockIdx]
    simp
  · rw [execFold_map_spawned]
    simp
  · rw [execFold_map_recorded]
    simp
  · intro b l hbx hby hbz hlx hly hlz
    rw [hrec, count_pairProd, count_coordList, count_coordList]
    rw [if_pos ⟨hbx, hby, hbz⟩, if_pos ⟨hlx, hly, hlz⟩]
  · rw [hrec, length_pairProd, length_coordList, length_coordList]

/-- Witness for C6 at grid `2×1×1`, block `2×1×1`. -/
theorem execute_oneTaskPerLane_witness :
    (WorkSize.mk ⟨2, 1, 1⟩ ⟨2, 1, 1⟩).blockKernels.linear ≤
      getSizeBlockKernelsLinearMax ∧
    ((∃ ts st,
      execute ⟨⟨2, 1, 1⟩, ⟨2, 1, 1⟩⟩ (fun _ => 0) = .ok (ts, st) ∧
      ts.map (fun t => t.blockIdx) =
        coordList (WorkSize.mk ⟨2, 1, 1⟩ ⟨2, 1, 1⟩).gridBlocks ∧
      ts.map (fun t => t.spawned) =
        (coordList (WorkSize.mk ⟨2, 1, 1⟩ ⟨2, 1, 1⟩).gridBlocks).map
          (fun _ =>
            coordList (WorkSize.mk ⟨2, 1, 1⟩ ⟨2, 1, 1⟩).blockKernels) ∧
      ts.map (fun t => t.recorded) =
        (coordList (WorkSize.mk ⟨2, 1, 1⟩ ⟨2, 1, 1⟩).gridBlocks).map
          (fun b =>
            (coordList
              (WorkSize.mk ⟨2, 1, 1⟩ ⟨2, 1, 1⟩).blockKernels).map
              (fun l => (b, l)))) ∧
    (∀ b l : Vec3,
      b.x < (WorkSize.mk ⟨2, 1, 1⟩ ⟨2, 1, 1⟩).gridBlocks.x →
      b.y < (WorkSize.mk ⟨2, 1, 1⟩ ⟨2, 1, 1⟩).gridBlocks.y →
      b.z < (WorkSize.mk ⟨2, 1, 1⟩ ⟨2, 1, 1⟩).gridBlocks.z →
      l.x < (WorkSize.mk ⟨2, 1, 1⟩ ⟨2, 1, 1⟩).blockKernels.x →
      l.y < (WorkSize.mk ⟨2, 1, 1⟩ ⟨2, 1, 1⟩).blockKernels.y →
      l.z < (WorkSize.mk ⟨2, 1, 1⟩ ⟨2, 1, 1⟩).blockKernels.z →
      (allRecorded
        (execute ⟨⟨2, 1, 1⟩, ⟨2, 1, 1⟩⟩ (fun _ => 0))).count (b, l) = 1) ∧
    (allRecorded (execute ⟨⟨2, 1, 1⟩, ⟨2, 1, 1⟩⟩ (fun _ => 0))).length =
      (WorkSize.mk ⟨2, 1, 1⟩ ⟨2, 1, 1⟩).gridBlocks.linear *
        (WorkSize.mk ⟨2, 1, 1⟩ ⟨2, 1, 1⟩).blockKernels.linear) :=
  ⟨by decide,
    execute_oneTaskPerLane ⟨⟨2, 1, 1⟩, ⟨2, 1, 1⟩⟩ (fun _ => 0) (by decide)⟩

/-- `IndexFibers::getIdxBlockKernel`: look the calling fiber's id up in
`m_mFibersToIndices`; the `assert(itFind != m_mFibersToIndices.end())`
failure branch is the `none` case. -/
def getIdxBlockKernel (mFibersToIndices : List (Nat × Vec3))
    (idFiber : Nat) : Option Vec3 :=
  mFibersToIndices.lookup idFiber

/-- Where one fiber of a block stands inside
`KernelExecutor::fiberKernel`: not yet started; registered (arrived at the
post-registration barrier); past the first barrier, kernel body executing;
kernel body finished (arrived at the pre-exit barrier); past the second
barrier. -/
inductive LanePhase
  | created
  | registered
  | running
  | atBar2
  | done
deriving DecidableEq, Repr

/-- The state of one block's execution: each lane's lifecycle position and
the `AccFibers` members the lanes mutate.  The lane with linear spawn index
`i` runs as the fiber with id `i`. -/
structure BlockState (n : Nat) where
  phase : Fin n → LanePhase
  fibersToIndices : List (Nat × Vec3)
  fibersToBarrier : List (Nat × Nat)
  masterFiber : Option Nat

/-- The registration prologue of `fiberKernel`, which contains no
suspension point and therefore runs atomically under cooperative
scheduling: claim the master-fiber role if the lane's coordinate is
`(0,0,0)`, then insert the fiber's index mapping and a zero barrier
phase. -/
def registerStep {n : Nat} (coords : Fin n → Vec3) (s : BlockState n)
    (i : Fin n) : BlockState n :=
  { phase := Function.update s.phase i .registered,
    fibersToIndices := (i.val, coords i) :: s.fibersToIndices,
    fibersToBarrier := (i.val, 0) :: s.fibersToBarrier,
    masterFiber :=
      if coords i = ⟨0, 0, 0⟩ then some i.val else s.masterFiber }

/-- Move lane `i` to lifecycle position `ph`. -/
def setLanePhase {n : Nat} (s : BlockState n) (i : Fin n)
    (ph : LanePhase) : BlockState n :=
  { s with phase := Function.update s.phase i ph }

/-- Small-step cooperative interleaving of one block's fibers.  A fiber
leaves the post-registration barrier only once every fiber of the block
has registered, and leaves the final barrier only once every fiber has
finished its kernel body — this is precisely the rendezvous behaviour
established for `FiberBarrier` and `syncBlockKernels` above, with
`m_uiNumKernelsPerBlock = n`. -/
inductive BStep {n : Nat} (coords : Fin n → Vec3) :
    BlockState n → BlockState n → Prop
  | register (s : BlockState n) (i : Fin n) (h : s.phase i = .created) :
      BStep coords s (registerStep coords s i)
  | releaseBar1 (s : BlockState n) (i : Fin n)
      (h : s.phase i = .registered)
      (hall : ∀ j, s.phase j ≠ .created) :
      BStep coords s (setLanePhase s i .running)
  | finishKernel (s : BlockState n) (i : Fin n)
      (h : s.phase i = .running) :
      BStep coords s (setLanePhase s i .atBar2)
  | releaseBar2 (s : BlockState n) (i : Fin n) (h : s.phase i = .atBar2)
      (hall : ∀ j, s.phase j = .atBar2 ∨ s.phase j = .done) :
      BStep coords s (setLanePhase s i .done)

/-- Block start: the executor has cleared the tables of the previous block
and no fiber has run yet. -/
def initBlockState (n : Nat) : BlockState n :=
  { phase := fun _ => .created, fibersToIndices := [],
    fibersToBarrier := [], masterFiber := none }

/-- The states one block's execution can pass through, under every
cooperative schedule. -/
inductive ReachableB {n : Nat} (coords : Fin n → Vec3) :
    BlockState n → Prop
  | init : ReachableB coords (initBlockState n)
  | step {s s' : BlockState n} :
      ReachableB coords s → BStep coords s s' → ReachableB coords s'

/-- Invariant of a block's execution: a non-created lane's registration is
in both tables, every table entry belongs to a lane of this block and
carries that lane's coordinate, and once any lane is past the first
barrier every lane has registered. -/
structure BlockInv {n : Nat} (coords : Fin n → Vec3)
    (s : BlockState n) : Prop where
  regIdx : ∀ i : Fin n, s.phase i ≠ .created →
    s.fibersToIndices.lookup i.val = some (coords i)
  regBar : ∀ i : Fin n, s.phase i ≠ .created →
    (s.fibersToBarrier.lookup i.val).isSome
  onlyIdx : ∀ p ∈ s.fibersToIndices,
    ∃ i : Fin n, p.1 = i.val ∧ p.2 = coords i ∧ s.phase i ≠ .created
  onlyBar : ∀ p ∈ s.fibersToBarrier,
    ∃ i : Fin n, p.1 = i.val ∧ s.phase i ≠ .created
  postBar1 : ∀ i : Fin n, s.phase i ≠ .created →
    s.phase i ≠ .registered → ∀ j : Fin n, s.phase j ≠ .created

theorem blockInv_init {n : Nat} (coords : Fin n → Vec3) :
    BlockInv coords (initBlockState n) := by
  refine ⟨?_, ?_, ?_, ?_, ?_⟩
  · intro i h
    exact absurd rfl h
  · intro i h
    exact absurd rfl h
  · intro p hp
    simp [initBlockState] at hp
  · intro p hp
    simp [initBlockState] at hp
  · intro i h
    exact absurd rfl h

theorem blockInv_step {n : Nat} {coords : Fin n → Vec3}
    {s s' : BlockState n} (hs : BlockInv coords s)
    (hstep : BStep coords s s') : BlockInv coords s' := by
  cases hstep with
  | register i h =>
    refine ⟨?_, ?_, ?_, ?_, ?_⟩
    · intro j hj
      by_cases hij : j = i
      · subst hij
        exact lookup_cons_self j.val (coords j) _
      · have hvij : j.val ≠ i.val := fun hv => hij (Fin.val_injective hv)
        rw [show (registerStep coords s i).fibersToIndices =
          (i.val, coords i) :: s.fibersToIndices from rfl,
          lookup_cons_ne _ _ hvij]
        refine hs.regIdx j ?_
        have := hj
        rwa [show (registerStep coords s i).phase =
          Function.update s.phase i .registered from rfl,
          Function.update_noteq hij] at this
    · intro j hj
      by_cases hij : j = i
      · subst hij
        rw [show (registerStep coords s j).fibersToBarrier =
          (j.val, 0) :: s.fibersToBarrier from rfl,
          lookup_cons_self]
        rfl
      · have hvij : j.val ≠ i.val := fun hv => hij (Fin.val_injective hv)
        rw [show (registerStep coords s i).fibersToBarrier =
          (i.val, 0) :: s.fibersToBarrier from rfl,
          lookup_cons_ne _ _ hvij]
        refine hs.regBar j ?_
        have := hj
        rwa [show (registerStep coords s i).phase =
          Function.update s.phase i .registered from rfl,
          Function.update_noteq hij] at this
    · intro p hp
      rcases List.mem_cons.mp hp with hp | hp
      · refine ⟨i, by rw [hp], by rw [hp], ?_⟩
        rw [show (registerStep coords s i).phase =
          Function.update s.phase i .registered from rfl,
          Function.update_same]
        intro hc
        cases hc
      · obtain ⟨j, hj1, hj2, hj3⟩ := hs.onlyIdx p hp
        refine ⟨j, hj1, hj2, ?_⟩
        by_cases hij : j = i
        · subst hij
          rw [show (registerStep coords s j).phase =
            Function.update s.phase j .registered from rfl,
            Function.update_same]
          intro hc
          cases hc
        · rw [show (registerStep coords s i).phase =
            Function.update s.phase i .registered from rfl,
            Function.update_noteq hij]
          exact hj3
    · intro p hp
      rcases List.mem_cons.mp hp with hp | hp
      · refine ⟨i, by rw [hp], ?_⟩
        rw [show (registerStep coords s i).phase =
          Function.update s.phase i .registered from rfl,
          Function.update_same]
        intro hc
        cases hc
      · obtain ⟨j, hj1, hj3⟩ := hs.onlyBar p hp
        refine ⟨j, hj1, ?_⟩
        by_cases hij : j = i
        · subst hij
          rw [show (registerStep coords s j).phase =
            Function.update s.phase j .registered from rfl,
            Function.update_same]
          intro hc
          cases hc
        · rw [show (registerStep coords s i).phase =
            Function.update s.phase i .registered from rfl,
            Function.update_noteq hij]
          exact hj3
    · intro j hj1 hj2 k
      by_cases hij : j = i
      · subst hij
        rw [show (registerStep coords s j).phase =
          Function.update s.phase j .registered from rfl,
          Function.update_same] at hj2
        exact absurd rfl hj2
      · rw [show (registerStep coords s i).phase =
          Function.update s.phase i .registered from rfl,
          Function.update_noteq hij] at hj1 hj2
        exact absurd h (hs.postBar1 j hj1 hj2 i)
  | releaseBar1 i h hall =>
    refine ⟨?_, ?_, ?_, ?_, ?_⟩
    · intro j _
      exact hs.regIdx j (hall j)
    · intro j _
      exact hs.regBar j (hall j)
    · intro p hp
      obtain ⟨j, hj1, hj2, _⟩ := hs.onlyIdx p hp
      refine ⟨j, hj1, hj2, ?_⟩
      by_cases hij : j = i
      · subst hij
        rw [show (setLanePhase s j .running).phase =
          Function.update s.phase j .running from rfl,
          Function.update_same]
        intro hc
        cases hc
      · rw [show (setLanePhase s i .running).phase =
          Function.update s.phase i .running from rfl,
          Function.update_noteq hij]
        exact hall j
    · intro p hp
      obtain ⟨j, hj1, _⟩ := hs.onlyBar p hp
      refine ⟨j, hj1, ?_⟩
      by_cases hij : j = i
      · subst hij
        rw [show (setLanePhase s j .running).phase =
          Function.update s.phase j .running from rfl,
          Function.update_same]
        intro hc
        cases hc
      · rw [show (setLanePhase s i .running).phase =
          Function.update s.phase i .running from rfl,
          Function.update_noteq hij]
        exact hall j
    · intro j _ _ k
      by_cases hik : k = i
      · subst hik
        rw [show (setLanePhase s k .running).phase =
          Function.update s.phase k .running from rfl,
          Function.update_same]
        intro hc
        cases hc
      · rw [show (setLanePhase s i .running).phase =
          Function.update s.phase i .running from rfl,
          Function.update_noteq hik]
        exact hall k
  | finishKernel i h =>
    have hallk : ∀ k : Fin n, s.phase k ≠ .created := by
      refine hs.postBar1 i ?_ ?_
      · rw [h]
        intro hc
        cases hc
      · rw [h]
        intro hc
        cases hc
    refine ⟨?_, ?_, ?_, ?_, ?_⟩
    · intro j _
      exact hs.regIdx j (hallk j)
    · intro j _
      exact hs.regBar j (hallk j)
    · intro p hp
      obtain ⟨j, hj1, hj2, _⟩ := hs.onlyIdx p hp
      refine ⟨j, hj1, hj2, ?_⟩
      by_cases hij : j = i
      · subst hij
        rw [show (setLanePhase s j .atBar2).phase =
          Function.update s.phase j .atBar2 from rfl,
          Function.update_same]
        intro hc
        cases hc
      · rw [show (setLanePhase s i .atBar2).phase =
          Function.update s.phase i .atBar2 from rfl,
          Function.update_noteq hij]
        exact hallk j
    · intro p hp
      obtain ⟨j, hj1, _⟩ := hs.onlyBar p hp
      refine ⟨j, hj1, ?_⟩
      by_cases hij : j = i
      · subst hij
        rw [show (setLanePhase s j .atBar2).phase =
          Function.update s.phase j .atBar2 from rfl,
          Function.update_same]
        intro hc
        cases hc
      · rw [show (setLanePhase s i .atBar2).phase =
          Function.update s.phase i .atBar2 from rfl,
          Function.update_noteq hij]
        exact hallk j
    · intro j _ _ k
      by_cases hik : k = i
      · subst hik
        rw [show (setLanePhase s k .atBar2).phase =
          Function.update s.phase k .atBar2 from rfl,
          Function.update_same]
        intro hc
        cases hc
      · rw [show (setLanePhase s i .atBar2).phase =
          Function.update s.phase i .atBar2 from rfl,
          Function.update_noteq hik]
        exact hallk k
  | releaseBar2 i h hall =>
    have hallk : ∀ k : Fin n, s.phase k ≠ .created := by
      intro k
      rcases hall k with hk | hk <;> rw [hk] <;> intro hc <;> cases hc
    refine ⟨?_, ?_, ?_, ?_, ?_⟩
    · intro j _
      exact hs.regIdx j (hallk j)
    · intro j _
      exact hs.regBar j (hallk j)
    · intro p hp
      obtain ⟨j, hj1, hj2, _⟩ := hs.onlyIdx p hp
      refine ⟨j, hj1, hj2, ?_⟩
      by_cases hij : j = i
      · subst hij
        rw [show (setLanePhase s j .done).phase =
          Function.update s.phase j .done from rfl,
          Function.update_same]
        intro hc
        cases hc
      · rw [show (setLanePhase s i .done).phase =
          Function.update s.phase i .done from rfl,
          Function.update_noteq hij]
        exact hallk j
    · intro p hp
      obtain ⟨j, hj1, _⟩ := hs.onlyBar p hp
      refine ⟨j, hj1, ?_⟩
      by_cases hij : j = i
      · subst hij
        rw [show (setLanePhase s j .done).phase =
          Function.update s.phase j .done from rfl,
          Function.update_same]
        intro hc
        cases hc
      · rw [show (setLanePhase s i .done).phase =
          Function.update s.phase i .done from rfl,
          Function.update_noteq hij]
        exact hallk j
    · intro j _ _ k
      by_cases hik : k = i
      · subst hik
        rw [show (setLanePhase s k .done).phase =
          Function.update s.phase k .done from rfl,
          Function.update_same]
        intro hc
        cases hc
      · rw [show (setLanePhase s i .done).phase =
          Function.update s.phase i .done from rfl,
          Function.update_noteq hik]
        exact hallk k

theorem reachable_blockInv {n : Nat} {coords : Fin n → Vec3}
    {s : BlockState n} (h : ReachableB coords s) : BlockInv coords s := by
  induction h with
  | init => exact blockInv_init coords
  | step _ hstep ih => exact blockInv_step ih hstep

/-- C8: while a lane's kernel body is executing, `getIdxBlockKernel`
returns exactly the 3-D coordinate that this lane registered on entry, and
the assertion branch (lookup failure, `none`) is unreachable: registration
and the post-registration barrier precede any kernel code in every
cooperative schedule. -/
theorem getIdxBlockKernel_running {n : Nat} (coords : Fin n → Vec3)
    (s : BlockState n) (i : Fin n) (hr : ReachableB coords s)
    (hp : s.phase i = .running) :
    getIdxBlockKernel s.fibersToIndices i.val = some (coords i) ∧
    getIdxBlockKernel s.fibersToIndices i.val ≠ none := by
  have hinv := reachable_blockInv hr
  have h1 : getIdxBlockKernel s.fibersToIndices i.val = some (coords i) :=
    hinv.regIdx i (by rw [hp]; intro hc; cases hc)
  refine ⟨h1, ?_⟩
  rw [h1]
  intro hc
  cases hc

/-- The executor leaves only cleared post-block states behind. -/
theorem execFold_postState (bSize : Vec3) (blocks : List Vec3) :
    ∀ acc, (∀ t ∈ acc.1, t.postState = ⟨[], [], [], []⟩) →
      ∀ t ∈ (execFold bSize acc blocks).1,
        t.postState = ⟨[], [], [], []⟩ := by
  induction blocks with
  | nil =>
    intro acc hacc
    simpa [execFold] using hacc
  | cons b bs ih =>
    intro acc hacc
    rw [execFold]
    refine ih _ ?_
    intro t ht
    rcases List.mem_append.mp ht with h | h
    · exact hacc t h
    · rw [List.mem_singleton.mp h]
      rfl

/-- C7 (amended): once every lane task of a block has joined and before
the next block coordinate is taken, `m_mFibersToIndices`,
`m_mFibersToBarrier`, `m_vvuiSharedMem` and `m_vuiExternalSharedMem` are
all cleared; at every point of a block's execution — every state reachable
under every cooperative schedule — the two lookup tables hold entries only
for lanes of the current block, each carrying that lane's own coordinate,
and from the moment any lane is past the post-registration barrier (its
phase is beyond `registered`; in particular while any kernel body runs)
they hold entries for every lane of the block. -/
theorem blockTeardown_clears_tables (ws : WorkSize) (fn : Vec3 → Nat)
    (ts : List BlockTrace) (st : ExecState)
    (hex : execute ws fn = .ok (ts, st))
    {n : Nat} (coords : Fin n → Vec3) (s : BlockState n)
    (hr : ReachableB coords s) :
    (∀ t ∈ ts, t.postState = ⟨[], [], [], []⟩) ∧
    (∀ p ∈ s.fibersToIndices,
      ∃ j : Fin n, p.1 = j.val ∧ p.2 = coords j) ∧
    (∀ p ∈ s.fibersToBarrier, ∃ j : Fin n, p.1 = j.val) ∧
    (∀ i : Fin n, s.phase i ≠ .created → s.phase i ≠ .registered →
      (∀ j : Fin n, s.fibersToIndices.lookup j.val = some (coords j)) ∧
      (∀ j : Fin n, (s.fibersToBarrier.lookup j.val).isSome)) := by
  have hinv := reachable_blockInv hr
  refine ⟨?_, ?_, ?_, ?_⟩
  · have hex2 : (if ws.blockKernels.linear > getSizeBlockKernelsLinearMax
        then (Except.error
            ⟨ws.blockKernels.linear, getSizeBlockKernelsLinearMax⟩ :
          Except ConfigError (List BlockTrace × ExecState))
        else .ok (execFold ws.blockKernels
          ([], ⟨[], [], [], List.replicate (fn ws.blockKernels) 0⟩)
          (coordList ws.gridBlocks))) = .ok (ts, st) := hex
    split at hex2
    · cases hex2
    · have hts : ts = (execFold ws.blockKernels
          ([], ⟨[], [], [],
            List.replicate (fn ws.blockKernels) 0⟩)
          (coordList ws.gridBlocks)).1 := by
        injection hex2 with hpair
        exact (congrArg Prod.fst hpair).symm
      rw [hts]
      refine execFold_postState _ _ _ ?_
      intro t ht
      simp at ht
  · intro p hp2
    obtain ⟨j, hj1, hj2, _⟩ := hinv.onlyIdx p hp2
    exact ⟨j, hj1, hj2⟩
  · intro p hp2
    obtain ⟨j, hj1, _⟩ := hinv.onlyBar p hp2
    exact ⟨j, hj1⟩
  · intro i h1 h2
    have hallk := hinv.postBar1 i h1 h2
    exact ⟨fun j => hinv.regIdx j (hallk j), fun j => hinv.regBar j (hallk j)⟩

/-- C7, counterexample to the claim as stated: with a block of two lanes
(coordinates `(0,0,0)` and `(1,0,0)`), the state in which only lane 0 has
run its registration prologue is reachable during the block's execution,
yet `m_mFibersToIndices` has no entry for lane 1 — so the tables do not
contain entries for *all* lanes of the current block at *every* point of
its execution. -/
theorem laneTables_incomplete_midRegistration :
    ReachableB
      (fun i : Fin 2 => if i = 0 then (⟨0, 0, 0⟩ : Vec3) else ⟨1, 0, 0⟩)
      (registerStep
        (fun i : Fin 2 => if i = 0 then (⟨0, 0, 0⟩ : Vec3) else ⟨1, 0, 0⟩)
        (initBlockState 2) 0) ∧
    (registerStep
      (fun i : Fin 2 => if i = 0 then (⟨0, 0, 0⟩ : Vec3) else ⟨1, 0, 0⟩)
      (initBlockState 2) 0).fibersToIndices.lookup 1 = none :=
  ⟨ReachableB.step ReachableB.init
      (BStep.register (initBlockState 2) 0 rfl),
    by simp [registerStep, initBlockState, List.lookup]⟩

/-- Witness for C8: a single-lane block whose lane has registered, passed
the first barrier and is executing its kernel body. -/
theorem getIdxBlockKernel_running_witness :
    (setLanePhase (registerStep (fun _ : Fin 1 => (⟨0, 0, 0⟩ : Vec3))
        (initBlockState 1) 0) 0 .running).phase 0 = .running ∧
    (getIdxBlockKernel
        (setLanePhase (registerStep (fun _ : Fin 1 => (⟨0, 0, 0⟩ : Vec3))
          (initBlockState 1) 0) 0 .running).fibersToIndices
        (0 : Fin 1).val =
      some ((fun _ : Fin 1 => (⟨0, 0, 0⟩ : Vec3)) 0) ∧
    getIdxBlockKernel
        (setLanePhase (registerStep (fun _ : Fin 1 => (⟨0, 0, 0⟩ : Vec3))
          (initBlockState 1) 0) 0 .running).fibersToIndices
        (0 : Fin 1).val ≠ none) :=
  ⟨by decide,
    getIdxBlockKernel_running (fun _ : Fin 1 => (⟨0, 0, 0⟩ : Vec3))
      (setLanePhase (registerStep (fun _ : Fin 1 => (⟨0, 0, 0⟩ : Vec3))
        (initBlockState 1) 0) 0 .running) 0
      (ReachableB.step
        (ReachableB.step ReachableB.init
          (BStep.register (initBlockState 1) 0 (by decide)))
        (BStep.releaseBar1 _ 0 (by decide) (by decide)))
      (by decide)⟩

/-- Witness for C7: a one-block, one-lane execution together with a
two-lane block state in which both lanes have registered and lane 0 is
executing its kernel body. -/
theorem blockTeardown_clears_tables_witness :
    execute ⟨⟨1, 1, 1⟩, ⟨1, 1, 1⟩⟩ (fun _ => 0) =
      .ok ([⟨⟨0, 0, 0⟩, [⟨0, 0, 0⟩], 0, [(⟨0, 0, 0⟩, ⟨0, 0, 0⟩)],
            ⟨[], [], [], []⟩⟩], ⟨[], [], [], []⟩) ∧
    ReachableB
      (fun i : Fin 2 => if i = 0 then (⟨0, 0, 0⟩ : Vec3) else ⟨1, 0, 0⟩)
      (setLanePhase (registerStep
        (fun i : Fin 2 => if i = 0 then (⟨0, 0, 0⟩ : Vec3) else ⟨1, 0, 0⟩)
        (registerStep
          (fun i : Fin 2 =>
            if i = 0 then (⟨0, 0, 0⟩ : Vec3) else ⟨1, 0, 0⟩)
          (initBlockState 2) 0) 1) 0 .running) ∧
    ((∀ t ∈ [(⟨⟨0, 0, 0⟩, [⟨0, 0, 0⟩], 0, [(⟨0, 0, 0⟩, ⟨0, 0, 0⟩)],
          ⟨[], [], [], []⟩⟩ : BlockTrace)],
        t.postState = ⟨[], [], [], []⟩) ∧
    (∀ p ∈ (setLanePhase (registerStep
        (fun i : Fin 2 => if i = 0 then (⟨0, 0, 0⟩ : Vec3) else ⟨1, 0, 0⟩)
        (registerStep
          (fun i : Fin 2 =>
            if i = 0 then (⟨0, 0, 0⟩ : Vec3) else ⟨1, 0, 0⟩)
          (initBlockState 2) 0) 1) 0 .running).fibersToIndices,
      ∃ j : Fin 2, p.1 = j.val ∧
        p.2 = (fun i : Fin 2 =>
          if i = 0 then (⟨0, 0, 0⟩ : Vec3) else ⟨1, 0, 0⟩) j) ∧
    (∀ p ∈ (setLanePhase (registerStep
        (fun i : Fin 2 => if i = 0 then (⟨0, 0, 0⟩ : Vec3) else ⟨1, 0, 0⟩)
        (registerStep
          (fun i : Fin 2 =>
            if i = 0 then (⟨0, 0, 0⟩ : Vec3) else ⟨1, 0, 0⟩)
          (initBlockState 2) 0) 1) 0 .running).fibersToBarrier,
      ∃ j : Fin 2, p.1 = j.val) ∧
    (∀ i : Fin 2,
      (setLanePhase (registerStep
        (fun i : Fin 2 => if i = 0 then (⟨0, 0, 0⟩ : Vec3) else ⟨1, 0, 0⟩)
        (registerStep
          (fun i : Fin 2 =>
            if i = 0 then (⟨0, 0, 0⟩ : Vec3) else ⟨1, 0, 0⟩)
          (initBlockState 2) 0) 1) 0 .running).phase i ≠ .created →
      (setLanePhase (registerStep
        (fun i : Fin 2 => if i = 0 then (⟨0, 0, 0⟩ : Vec3) else ⟨1, 0, 0⟩)
        (registerStep
          (fun i : Fin 2 =>
            if i = 0 then (⟨0, 0, 0⟩ : Vec3) else ⟨1, 0, 0⟩)
          (initBlockState 2) 0) 1) 0 .running).phase i ≠ .registered →
      (∀ j : Fin 2, (setLanePhase (registerStep
          (fun i : Fin 2 =>
            if i = 0 then (⟨0, 0, 0⟩ : Vec3) else ⟨1, 0, 0⟩)
          (registerStep
            (fun i : Fin 2 =>
              if i = 0 then (⟨0, 0, 0⟩ : Vec3) else ⟨1, 0, 0⟩)
            (initBlockState 2) 0) 1) 0 .running).fibersToIndices.lookup
            j.val =
          some ((fun i : Fin 2 =>
            if i = 0 then (⟨0, 0, 0⟩ : Vec3) else ⟨1, 0, 0⟩) j)) ∧
      (∀ j : Fin 2, ((setLanePhase (registerStep
          (fun i : Fin 2 =>
            if i = 0 then (⟨0, 0, 0⟩ : Vec3) else ⟨1, 0, 0⟩)
          (registerStep
            (fun i : Fin 2 =>
              if i = 0 then (⟨0, 0, 0⟩ : Vec3) else ⟨1, 0, 0⟩)
            (initBlockState 2) 0) 1) 0 .running).fibersToBarrier.lookup
            j.val).isSome))) := by
  have hchain : ReachableB
      (fun i : Fin 2 => if i = 0 then (⟨0, 0, 0⟩ : Vec3) else ⟨1, 0, 0⟩)
      (setLanePhase (registerStep
        (fun i : Fin 2 => if i = 0 then (⟨0, 0, 0⟩ : Vec3) else ⟨1, 0, 0⟩)
        (registerStep
          (fun i : Fin 2 =>
            if i = 0 then (⟨0, 0, 0⟩ : Vec3) else ⟨1, 0, 0⟩)
          (initBlockState 2) 0) 1) 0 .running) :=
    ReachableB.step
      (ReachableB.step
        (ReachableB.step ReachableB.init
          (BStep.register (initBlockState 2) 0 (by decide)))
        (BStep.register _ 1 (by decide)))
      (BStep.releaseBar1 _ 0 (by decide) (by decide))
  exact ⟨rfl, hchain,
    blockTeardown_clears_tables ⟨⟨1, 1, 1⟩, ⟨1, 1, 1⟩⟩ (fun _ => 0)
      [⟨⟨0, 0, 0⟩, [⟨0, 0, 0⟩], 0, [(⟨0, 0, 0⟩, ⟨0, 0, 0⟩)],
        ⟨[], [], [], []⟩⟩] ⟨[], [], [], []⟩ rfl
      (fun i : Fin 2 => if i = 0 then (⟨0, 0, 0⟩ : Vec3) else ⟨1, 0, 0⟩)
      (setLanePhase (registerStep
        (fun i : Fin 2 => if i = 0 then (⟨0, 0, 0⟩ : Vec3) else ⟨1, 0, 0⟩)
        (registerStep
          (fun i : Fin 2 =>
            if i = 0 then (⟨0, 0, 0⟩ : Vec3) else ⟨1, 0, 0⟩)
          (initBlockState 2) 0) 1) 0 .running)
      hchain⟩

end AlpakaFibers
